import Mathlib

/-!
Verification of the sulley specification engine (src/sulley/__init__.py,
src/sulley/utils/crc16.py, src/sulley/utils/scada.py) against its
natural-language specification.

Python strings of bytes are modelled as `List Nat` (one entry per character,
each the character code), Python exceptions as `Except` errors, and the
process-wide registry plus the current-request selector as an explicit state
record threaded through the construction API.
-/

/-! ## CRC16 (src/sulley/utils/crc16.py) -/

/-- Embedding of `reflect(crc, bitnum)` (crc16.py lines 10-20): reflect the
lower `bitnum` bits of `crc`.  The fold state is the pair `(j, crcout)` of the
Python locals; iteration `b` tests bit `bitnum - 1 - b` of `crc` and, when
set, ORs the current `j` into `crcout`, then doubles `j`. -/
def reflect (crc bitnum : Nat) : Nat :=
  ((List.range bitnum).foldl
    (fun st b =>
      let i := 1 <<< (bitnum - 1 - b)
      (st.1 <<< 1, if crc &&& i ≠ 0 then st.2 ||| st.1 else st.2))
    (1, 0)).2

/-- Body of one iteration of the inner loop of `crcbitbybit` (crc16.py lines
31-38): save the carried-out bit, shift the 16-bit register left, feed in the
data bit selected by mask `j`, and XOR the polynomial 0x1021 when the carry
was set.  Here `c` is the already-reflected input byte. -/
def crcByteRound (c j crc : Nat) : Nat :=
  let bit := crc &&& 0x8000
  let crc1 := (crc <<< 1) &&& 0xFFFF
  let crc2 := if c &&& j ≠ 0 then crc1 ||| 1 else crc1
  if bit ≠ 0 then crc2 ^^^ 0x1021 else crc2

/-- Embedding of the inner `for b in range(16)` loop of `crcbitbybit`
(crc16.py lines 30-41).  The fuel argument is the loop counter bound 16; the
loop halves `j` each round and stops early as soon as `j` reaches 0, exactly
as the `if j == 0: break` in the source. -/
def crcInnerLoop : Nat → Nat → Nat → Nat → Nat
  | 0, _, _, crc => crc
  | Nat.succ fuel, c, j, crc =>
    let crc2 := crcByteRound c j crc
    if j >>> 1 = 0 then crc2 else crcInnerLoop fuel c (j >>> 1) crc2

/-- Body of one iteration of the trailing loop of `crcbitbybit` (crc16.py
lines 43-47).  Note the source does not mask the register here, so the value
may grow beyond 16 bits. -/
def crcTrailRound (crc : Nat) : Nat :=
  let bit := crc &&& 0x8000
  let crc2 := crc <<< 1
  if bit ≠ 0 then crc2 ^^^ 0x1021 else crc2

/-- Embedding of `crcbitbybit(p)` (crc16.py lines 23-50): per input byte,
reflect its 8 bits and run the inner loop starting at mask `j = 0x80`; then
run 16 trailing rounds and bit-reflect the low 16 bits of the result. -/
def crcbitbybit (p : List Nat) : Nat :=
  let crc := p.foldl (fun crc c => crcInnerLoop 16 (reflect c 8) 0x80 crc) 0
  let crc2 := (List.range 16).foldl (fun crc _ => crcTrailRound crc) crc
  reflect crc2 16

/-- One shift round of the reference construction, formalised from the
specification words (spec 4.6): a 16-bit register, initial value 0 upstream,
polynomial 0x1021, XOR on the carried-out bit; the data bit selected by
`bitMask` is shifted into the low end and the register is kept to 16 bits. -/
def specShiftRound (crc bitMask : Nat) : Nat :=
  let carry := crc &&& 0x8000
  let crc1 := ((crc <<< 1) &&& 0xFFFF) ||| (if bitMask ≠ 0 then 1 else 0)
  if carry ≠ 0 then crc1 ^^^ 0x1021 else crc1

/-- Feed one input byte into the reference register for the given number of
shift rounds: the byte is bit-reflected and consumed most-significant bit
first (mask `0x80 >>> b` in round `b`); rounds beyond the eighth shift in
zero bits. -/
def specFeedByte (rounds crc c : Nat) : Nat :=
  (List.range rounds).foldl
    (fun crc b => specShiftRound crc (reflect c 8 &&& (0x80 >>> b))) crc

/-- The 16-bit CCITT reference bit-by-bit construction as the specification
states it, parameterised by the number of shift rounds per input byte: feed
every byte (reflected, `rounds` rounds each), perform 16 trailing zero-shift
rounds, then bit-reflect the 16-bit result.  The claim under test says the
code matches this construction with `rounds = 16`; the code in fact matches
it with `rounds = 8`. -/
def crc16_spec_reference (rounds : Nat) (p : List Nat) : Nat :=
  let crc := p.foldl (fun crc c => specFeedByte rounds crc c) 0
  let crc2 := (List.range 16).foldl (fun crc _ => specShiftRound crc 0) crc
  reflect crc2 16

/-! ## CRC16 class interface (crc16.py lines 53-85) -/

/-- Embedding of a `CRC16` instance: just its `val` attribute. -/
structure CRC16c where
  val : Nat
deriving DecidableEq

/-- Embedding of `CRC16.__init__` (crc16.py lines 59-63): `val` starts at 0
and `update` is invoked only when the string is non-empty. -/
def CRC16_init (s : List Nat) : CRC16c :=
  if s ≠ [] then { val := crcbitbybit s } else { val := 0 }

/-- Embedding of `CRC16.update` (crc16.py lines 65-67): replaces `val` by the
checksum of the given string. -/
def CRC16_update (o : CRC16c) (s : List Nat) : CRC16c :=
  { o with val := crcbitbybit s }

/-- Embedding of Python 2 `chr`: one character for codes below 256, a
`ValueError` otherwise. -/
def pyChr (n : Nat) : Except String (List Nat) :=
  if n < 256 then Except.ok [n] else Except.error ("chr() arg not in range(256)")

/-- Embedding of `CRC16.checksum` (crc16.py lines 69-71):
`chr(val >> 8) + chr(val & 0xff)`. -/
def CRC16_checksum (o : CRC16c) : Except String (List Nat) := do
  let hi ← pyChr (o.val >>> 8)
  let lo ← pyChr (o.val &&& 0xff)
  Except.ok (hi ++ lo)

/-- Embedding of `CRC16.intchecksum` (crc16.py lines 73-75). -/
def CRC16_intchecksum (o : CRC16c) : Nat :=
  o.val

/-- Embedding of `CRC16.copy` (crc16.py lines 81-85): a fresh instance whose
`val` is copied over. -/
def CRC16_copy (o : CRC16c) : CRC16c :=
  { (CRC16_init []) with val := o.val }

/-! ## DNP3 framer (src/sulley/utils/scada.py) -/

/-- Value passed as the second argument of `struct.pack("<H", ...)` in
`dnp3`: in the source it is a `CRC16` instance, not an integer, so the
embedding distinguishes the two cases. -/
inductive StructArg where
  | int : Nat → StructArg
  | crc16inst : CRC16c → StructArg
deriving DecidableEq

/-- Embedding of Python 2 `struct.pack("<H", v)`: packs an integer in
`[0, 0xFFFF]` as two little-endian bytes; any non-integer argument (such as a
`CRC16` instance, which defines neither `__index__` nor `__int__`) raises
`struct.error: cannot convert argument to integer`. -/
def struct_pack_LH : StructArg → Except String (List Nat)
  | StructArg.int n =>
    if n ≤ 0xFFFF then Except.ok [n % 256, n / 256]
    else Except.error ("ushort format requires 0 <= number <= USHRT_MAX")
  | StructArg.crc16inst _ =>
    Except.error ("cannot convert argument to integer")

/-- Embedding of the chunk selection on scada.py line 42:
`chunk = slice[i * 16: (i + 1) * 16]`.  The slice is indexed by the segment
counter `i`; the chunk counter `x` of the enclosing `for x in range(num_chunks)`
loop does not occur in the expression. -/
def dnp3_chunk (sl : List Nat) (i x : Nat) : List Nat :=
  (sl.drop (i * 16)).take 16

/-- Embedding of `dnp3(data, control_code, src, dst)` (scada.py lines 8-46).
Per segment `i`: the 250-byte slice, the 8-byte header
`05 64 | len | control | dst | dst | src | src`, the header checksum from
`struct.pack("<H", CRC16(string=p))`, the fragmentation-flag byte
(`i`, OR 0x40 when first, OR 0x80 when last), then per chunk a
`struct.pack("<H", CRC16(string=chunk))` checksum followed by the chunk.
Exceptions propagate as `Except.error`. -/
def dnp3 (data : List Nat) (control_code src dst : List Nat) :
    Except String (List (List Nat)) :=
  let num_packets := (data.length + 249) / 250
  (List.range num_packets).foldlM (fun packets i => do
    let sl := (data.drop (i * 250)).take 250
    let lenc ← pyChr sl.length
    let p := [0x05, 0x64] ++ lenc ++ control_code ++ dst ++ src
    let chksum ← struct_pack_LH (StructArg.crc16inst (CRC16_init p))
    let p := p ++ chksum
    let num_chunks := (sl.length + 15) / 16
    let frag1 := if i = 0 then i ||| 0x40 else i
    let frag_number := if i = num_packets - 1 then frag1 ||| 0x80 else frag1
    let fragch ← pyChr frag_number
    let p := p ++ fragch
    let p2 ← (List.range num_chunks).foldlM (fun p x => do
      let chunk := dnp3_chunk sl i x
      let cksum2 ← struct_pack_LH (StructArg.crc16inst (CRC16_init chunk))
      pure (p ++ cksum2 ++ chunk)) p
    pure (packets ++ [p2])) []

/-! ## Raw-hex parsing in s_binary (src/sulley/__init__.py lines 318-344) -/

/-- Embedding of Python `s.replace(t, "")` for a single-character pattern
`t`: drop every occurrence of the character. -/
def removeChar (t : Char) : List Char → List Char
  | [] => []
  | c :: rest => if c = t then removeChar t rest else c :: removeChar t rest

/-- Embedding of `parsed.replace("0x", "")` (line 333): scan left to right,
removing each non-overlapping occurrence of the two-character pattern. -/
def remove0x : List Char → List Char
  | [] => []
  | [c] => [c]
  | c1 :: c2 :: rest =>
    if c1 = '0' ∧ c2 = 'x' then remove0x rest
    else c1 :: remove0x (c2 :: rest)

/-- Embedding of `parsed.replace("\\x", "")` (line 334). -/
def removeBx : List Char → List Char
  | [] => []
  | [c] => [c]
  | c1 :: c2 :: rest =>
    if c1 = '\\' ∧ c2 = 'x' then removeBx rest
    else c1 :: removeBx (c2 :: rest)

/-- Value of one hexadecimal digit, the digit set accepted by
`int(pair, 16)` on a bare digit. -/
def hexVal (c : Char) : Option Nat :=
  if '0' ≤ c ∧ c ≤ '9' then some (c.toNat - '0'.toNat)
  else if 'a' ≤ c ∧ c ≤ 'f' then some (c.toNat - 'a'.toNat + 10)
  else if 'A' ≤ c ∧ c ≤ 'F' then some (c.toNat - 'A'.toNat + 10)
  else none

def pyInt16Aux : Nat → List Char → Option Nat
  | acc, [] => some acc
  | acc, c :: r =>
    match hexVal c with
    | some d => pyInt16Aux (16 * acc + d) r
    | none => none

/-- Embedding of `int(pair, 16)` (line 341) on the digit strings produced by
the loop: the digits are accumulated base 16; the empty string and non-digit
characters raise `ValueError` (Python's tolerance for signs and surrounding
whitespace is never exercised here because the loop feeds one- or
two-character slices of the stripped input). -/
def pyInt16 (s : List Char) : Option Nat :=
  if s.isEmpty then none else pyInt16Aux 0 s

/-- Embedding of the `while parsed:` loop of `s_binary` (lines 337-341):
consume two characters at a time (one trailing character if the length is
odd), convert each with `int(pair, 16)` and emit `chr` of it (always below
256 for at most two hex digits). -/
def parsePairs : List Char → Option (List Nat)
  | [] => some []
  | [c] => do
    let v ← pyInt16 [c]
    some [v]
  | c1 :: c2 :: rest => do
    let v ← pyInt16 [c1, c2]
    let t ← parsePairs rest
    some (v :: t)

/-- The byte sequence `s_binary` parses out of its argument (lines 326-341):
strip `" "`, `"\t"`, `"\r"`, `"\n"`, `","`, `"0x"`, `"\\x"` in that order,
then convert digit pairs.  The resulting bytes become the value of the
`static` primitive that `s_binary` pushes. -/
def s_binary_parse (s : List Char) : Option (List Nat) :=
  parsePairs (removeBx (remove0x (removeChar ',' (removeChar '\n'
    (removeChar '\r' (removeChar '\t' (removeChar ' ' s)))))))

/-- The five single-character strip stages of `s_binary`, composed. -/
def cleaned1 (s : List Char) : List Char :=
  removeChar ',' (removeChar '\n' (removeChar '\r' (removeChar '\t'
    (removeChar ' ' s))))

/-- Tokens of a well-formed raw-hex input: hexadecimal digit pairs and the
separators the claim names. -/
inductive HexTok where
  | pair : Char → Char → HexTok
  | sep0x : HexTok
  | sepbx : HexTok
  | sepSpace : HexTok
  | sepTab : HexTok
  | sepComma : HexTok
deriving DecidableEq

def HexTok.chars : HexTok → List Char
  | pair a b => [a, b]
  | sep0x => ['0', 'x']
  | sepbx => ['\\', 'x']
  | sepSpace => [' ']
  | sepTab => ['\t']
  | sepComma => [',']

/-- Concatenation of a token sequence into the raw input string. -/
def toksChars (ts : List HexTok) : List Char :=
  (ts.map HexTok.chars).flatten

def HexTok.isPair : HexTok → Bool
  | pair _ _ => true
  | _ => false

/-- The same digits with every separator stripped. -/
def toksDigits (ts : List HexTok) : List Char :=
  toksChars (ts.filter HexTok.isPair)

/-- A digit pair is good when both characters are hexadecimal digits. -/
def goodTok : HexTok → Bool
  | HexTok.pair a b => (hexVal a).isSome && (hexVal b).isSome
  | _ => true

def pairVal (a b : Char) : Nat :=
  16 * (hexVal a).getD 0 + (hexVal b).getD 0

/-- The bytes a token sequence denotes: one byte per digit pair. -/
def toksBytes (ts : List HexTok) : List Nat :=
  ts.filterMap (fun t =>
    match t with
    | HexTok.pair a b => some (pairVal a b)
    | _ => none)

/-- Tokens that survive the five single-character strip stages. -/
def isKeptTok : HexTok → Bool
  | HexTok.sepSpace => false
  | HexTok.sepTab => false
  | HexTok.sepComma => false
  | _ => true

def notSep0x : HexTok → Bool
  | HexTok.sep0x => false
  | _ => true

def notSepbx : HexTok → Bool
  | HexTok.sepbx => false
  | _ => true

def pairOrBx : HexTok → Bool
  | HexTok.pair _ _ => true
  | HexTok.sepbx => true
  | _ => false

/-! ## Request registry and block model (src/sulley/__init__.py; the blocks
module is not under src/ and is modelled from the spec where noted) -/

/-- Values held by fields (Python "Mixed" values). -/
inductive PVal where
  | str : String → PVal
  | bytes : List Nat → PVal
  | int : Int → PVal
  | noneV : PVal
deriving DecidableEq

/-- Errors of the specification taxonomy (spec section 7), carrying the
message the source attaches to the `SullyRuntimeError` it raises, plus the
Python-level `TypeError` the embedding needs for a missing current
request. -/
inductive SulleyError where
  | DuplicateName : String → SulleyError
  | NotFound : String → SulleyError
  | DanglingReference : String → SulleyError
  | TypeError : String → SulleyError
deriving DecidableEq

/-- Items pushed onto a request: primitives, blocks and the modifier blocks.
Function-valued parameters of the source (the sizer `math` argument, the
repeat `variable` argument) are omitted; no claim under test depends on
them. -/
inductive Item where
  | staticP : List Nat → Option String → Item
  | blockB : String → Item
  | checksumM : String → String → Nat → String → Option String → Item
  | sizeM : String → Int → Nat → String → String → Bool → Bool → Bool →
      Option String → Item
  | repeatM : String → Nat → Option Nat → Nat → Bool → Option String → Item
deriving DecidableEq

def Item.nameOf : Item → Option String
  | staticP _ n => n
  | blockB n => some n
  | checksumM _ _ _ _ n => n
  | sizeM _ _ _ _ _ _ _ _ n => n
  | repeatM _ _ _ _ _ n => n

/-- Modelled from the spec: the `blocks.request` data (the blocks module is
not under src/).  Spec section 3: a Request owns a root block (here the
ordered items pushed so far), a flat name-to-field table unique across the
tree, and (section 4.1) an open-block stack holding the currently open Block
objects. -/
structure Request where
  name : String
  stack : List Item
  block_stack : List Item
  names : List (String × PVal)
deriving DecidableEq

/-- Modelled from the spec: `blocks.request(name)` creates an empty Request
(spec section 4.1: `init(name)` creates a Request; nothing has been pushed
into it yet). -/
def blocks_request (name : String) : Request :=
  { name := name, stack := [], block_stack := [], names := [] }

/-- Association-list lookup: the embedding of Python dictionary indexing and
of the `in` test on dictionaries (via `isSome`). -/
def alookup {α : Type} : List (String × α) → String → Option α
  | [], _ => none
  | (k, v) :: t, key => if k = key then some v else alookup t key

/-- Association-list value replacement at an existing key: the embedding of
assigning through a dictionary entry (`d[k].value = v`). -/
def aset {α : Type} : List (String × α) → String → α → List (String × α)
  | [], _, _ => []
  | (k, v) :: t, key, nv => if k = key then (k, nv) :: t else (k, v) :: aset t key nv

/-- Modelled from the spec (section 5): the process-wide registry of Requests
keyed by name (`blocks.REQUESTS`) and the mutable current-request selector
(`blocks.CURRENT`, held here as the name of the selected request, `none`
before any request exists). -/
structure GState where
  REQUESTS : List (String × Request)
  CURRENT : Option String
deriving DecidableEq

def getCurrent (g : GState) : Option Request :=
  match g.CURRENT with
  | none => none
  | some n => alookup g.REQUESTS n

def setCurrent (g : GState) (r : Request) : GState :=
  match g.CURRENT with
  | none => g
  | some n => { g with REQUESTS := aset g.REQUESTS n r }

/-- Embedding of `s_initialize(name)` (lines 47-62): raise on an already
registered name, otherwise register a fresh request under the name and make
it current.  An error carries the state at raise time, so an error paired
with the entry state means no mutation happened. -/
def s_initialize (name : String) (g : GState) : Except (SulleyError × GState) GState :=
  if (alookup g.REQUESTS name).isSome then
    Except.error
      (SulleyError.DuplicateName ("blocks.REQUESTS ALREADY EXISTS: " ++ name), g)
  else
    Except.ok { REQUESTS := g.REQUESTS ++ [(name, blocks_request name)],
                CURRENT := some name }

/-- Embedding of `s_switch(name)` (lines 92-101): raise NotFound for an
unregistered name, otherwise select the request. -/
def s_switch (name : String) (g : GState) : Except (SulleyError × GState) GState :=
  if (alookup g.REQUESTS name).isNone then
    Except.error (SulleyError.NotFound ("blocks.REQUESTS NOT FOUND: " ++ name), g)
  else
    Except.ok { g with CURRENT := some name }

/-- Embedding of `s_update(name, value)` (lines 303-315): raise NotFound when
the name is absent from the current request's name table, otherwise assign
the named field's current value. -/
def s_update (name : String) (value : PVal) (g : GState) :
    Except (SulleyError × GState) GState :=
  match getCurrent g with
  | none =>
    Except.error (SulleyError.TypeError ("NoneType object has no attribute names"), g)
  | some cur =>
    if (alookup cur.names name).isNone then
      Except.error (SulleyError.NotFound
        ("NO OBJECT WITH NAME " ++ name ++ " FOUND IN CURRENT REQUEST"), g)
    else
      Except.ok (setCurrent g { cur with names := aset cur.names name value })

/-- Python 2 equality between the string `block_name` and a Block object on
the open-block stack, as evaluated element-wise by the
`block_name in sulley.blocks.CURRENT.block_stack` guard of `s_checksum` and
`s_size` (lines 184 and 285): a `str` and a block instance define no
cross-type `__eq__`, so the default identity comparison always yields
`False` and the guard can never fire. -/
def pyEq_str_block (s : String) (b : Item) : Bool := false

/-- Modelled from the spec: the `blocks.checksum` constructor (the blocks
module is not under src/).  Spec section 4.3: a modifier whose target names a
Block that is still open fails immediately with DanglingReference; section 3:
the target must already exist in the name table (NotFound); section 6:
`declare_modifier -> Result<_, DanglingReference|NotFound>`. -/
def blocks_checksum (block_name : String) (req : Request) (algorithm : String)
    (length : Nat) (endian : String) (nm : Option String) : Except SulleyError Item :=
  if req.block_stack.any (fun b => b.nameOf == some block_name) then
    Except.error (SulleyError.DanglingReference block_name)
  else if (alookup req.names block_name).isNone then
    Except.error (SulleyError.NotFound block_name)
  else
    Except.ok (Item.checksumM block_name algorithm length endian nm)

/-- Modelled from the spec: the `blocks.size` constructor, with the same
construction-time target checks as `blocks.checksum` (spec sections 3, 4.3
and 6). -/
def blocks_size (block_name : String) (req : Request) (offset : Int) (length : Nat)
    (endian format : String) (inclusive signed fuzzable : Bool) (nm : Option String) :
    Except SulleyError Item :=
  if req.block_stack.any (fun b => b.nameOf == some block_name) then
    Except.error (SulleyError.DanglingReference block_name)
  else if (alookup req.names block_name).isNone then
    Except.error (SulleyError.NotFound block_name)
  else
    Except.ok (Item.sizeM block_name offset length endian format inclusive signed
      fuzzable nm)

/-- Modelled from the spec: the `blocks.repeat` constructor, with the same
construction-time target checks as `blocks.checksum` (spec sections 3, 4.3
and 6). -/
def blocks_repeat (block_name : String) (req : Request) (min_reps : Nat)
    (max_reps : Option Nat) (step : Nat) (fuzzable : Bool) (nm : Option String) :
    Except SulleyError Item :=
  if req.block_stack.any (fun b => b.nameOf == some block_name) then
    Except.error (SulleyError.DanglingReference block_name)
  else if (alookup req.names block_name).isNone then
    Except.error (SulleyError.NotFound block_name)
  else
    Except.ok (Item.repeatM block_name min_reps max_reps step fuzzable nm)

/-- Modelled from the spec (section 4.1): `request.push` appends the item in
declaration order, records its name in the flat name table, and pushes Block
items onto the open-block stack. -/
def Request.push (r : Request) (it : Item) : Request :=
  { r with
    stack := r.stack ++ [it],
    block_stack :=
      match it with
      | Item.blockB _ => r.block_stack ++ [it]
      | _ => r.block_stack,
    names :=
      match it.nameOf with
      | some n => r.names ++ [(n, PVal.noneV)]
      | none => r.names }

/-- Embedding of `s_checksum(block_name, algorithm, length, endian, name)`
(lines 165-195): the in-src guard tests membership of the name string in the
open-block stack (`pyEq_str_block` element-wise), then the blocks module
constructor runs and the result is pushed onto the current request. -/
def s_checksum (block_name algorithm : String) (length : Nat) (endian : String)
    (nm : Option String) (g : GState) : Except (SulleyError × GState) GState :=
  match getCurrent g with
  | none =>
    Except.error
      (SulleyError.TypeError ("NoneType object has no attribute block_stack"), g)
  | some cur =>
    if cur.block_stack.any (pyEq_str_block block_name) then
      Except.error (SulleyError.DanglingReference
        ("CAN N0T ADD A CHECKSUM FOR A BLOCK CURRENTLY IN THE STACK"), g)
    else
      match blocks_checksum block_name cur algorithm length endian nm with
      | Except.error e => Except.error (e, g)
      | Except.ok item => Except.ok (setCurrent g (cur.push item))

/-- Embedding of `s_size(block_name, ...)` (lines 242-300): same shape as
`s_checksum`, guard included. -/
def s_size (block_name : String) (offset : Int) (length : Nat)
    (endian format : String) (inclusive signed fuzzable : Bool) (nm : Option String)
    (g : GState) : Except (SulleyError × GState) GState :=
  match getCurrent g with
  | none =>
    Except.error
      (SulleyError.TypeError ("NoneType object has no attribute block_stack"), g)
  | some cur =>
    if cur.block_stack.any (pyEq_str_block block_name) then
      Except.error (SulleyError.DanglingReference
        ("CAN NOT ADD A SIZE FOR A BLOCK CURRENTLY IN THE STACK"), g)
    else
      match blocks_size block_name cur offset length endian format inclusive signed
          fuzzable nm with
      | Except.error e => Except.error (e, g)
      | Except.ok item => Except.ok (setCurrent g (cur.push item))

/-- Embedding of `s_repeat(block_name, ...)` (lines 198-239): unlike
`s_checksum` and `s_size` the wrapper has no guard of its own; the blocks
module constructor runs directly and the result is pushed. -/
def s_repeat (block_name : String) (min_reps : Nat) (max_reps : Option Nat)
    (step : Nat) (fuzzable : Bool) (nm : Option String) (g : GState) :
    Except (SulleyError × GState) GState :=
  match getCurrent g with
  | none =>
    Except.error (SulleyError.TypeError ("NoneType object has no attribute push"), g)
  | some cur =>
    match blocks_repeat block_name cur min_reps max_reps step fuzzable nm with
    | Except.error e => Except.error (e, g)
    | Except.ok item => Except.ok (setCurrent g (cur.push item))

/-- Concrete request with one open block `A`, used by the C7 witness. -/
def reqOpenA : Request :=
  { name := "r", stack := [Item.blockB ("A")],
    block_stack := [Item.blockB ("A")], names := [("A", PVal.noneV)] }

def gOpenA : GState :=
  { REQUESTS := [("r", reqOpenA)], CURRENT := some ("r") }

def gEmptyReq : GState :=
  { REQUESTS := [("r", blocks_request ("r"))], CURRENT := some ("r") }

/-- Concrete request with one field `f` of the given value, used by the C8
witness. -/
def reqWithF (v : Int) : Request :=
  { name := "r", stack := [], block_stack := [], names := [("f", PVal.int v)] }

def gWithF (v : Int) : GState :=
  { REQUESTS := [("r", reqWithF v)], CURRENT := some ("r") }

/-! ## Unimplemented legacy stub aliases (lines 662-793) -/

/-- Callables as the stub aliases use them: an exception class (calling it
constructs an exception value) or a plain string (calling anything that is
not callable raises a `TypeError`). -/
inductive PyCallable where
  | excClass : String → PyCallable
  | strVal : String → PyCallable
deriving DecidableEq

inductive PyExn where
  | typeError : String → PyExn
  | raised : String → PyExn
deriving DecidableEq

def pyCall : PyCallable → String → Except PyExn String
  | PyCallable.excClass n, a => Except.ok (n ++ "(" ++ a ++ ")")
  | PyCallable.strVal _, _ =>
    Except.error (PyExn.typeError ("str object is not callable"))

/-- Embedding of `custom_raise(argument, msg)` (lines 662-666): the returned
closure evaluates `msg(argument(x))` and raises the result.  In every alias
below `argument` is the class `ValueError` and `msg` is a plain string, so
the inner call raises a `TypeError` before the `raise` statement is even
reached; either way the closure never returns normally, and it never touches
the request registry, so nothing is pushed onto the current request. -/
def custom_raise (argument msg : PyCallable) (x : String) : Except PyExn String := do
  let a ← pyCall argument x
  let m ← pyCall msg a
  Except.error (PyExn.raised m)

def s_string_lf : String → Except PyExn String :=
  custom_raise (PyCallable.excClass ("ValueError"))
    (PyCallable.strVal ("NotImplementedError: s_string_lf is not currently implemented, arguments were"))

def s_string_or_env : String → Except PyExn String :=
  custom_raise (PyCallable.excClass ("ValueError"))
    (PyCallable.strVal ("NotImplementedError: s_string_or_env is not currently implemented, arguments were"))

def s_string_repeat : String → Except PyExn String :=
  custom_raise (PyCallable.excClass ("ValueError"))
    (PyCallable.strVal ("NotImplementedError: s_string_repeat is not currently implemented, arguments were"))

def s_string_variable : String → Except PyExn String :=
  custom_raise (PyCallable.excClass ("ValueError"))
    (PyCallable.strVal ("NotImplementedError: s_string_variable is not currently implemented, arguments were"))

def s_string_variables : String → Except PyExn String :=
  custom_raise (PyCallable.excClass ("ValueError"))
    (PyCallable.strVal ("NotImplementedError: s_string_variables is not currently implemented, arguments were"))

def s_binary_repeat : String → Except PyExn String :=
  custom_raise (PyCallable.excClass ("ValueError"))
    (PyCallable.strVal ("NotImplementedError: s_string_variables is not currently implemented, arguments were"))

def s_unistring_variable : String → Except PyExn String :=
  custom_raise (PyCallable.excClass ("ValueError"))
    (PyCallable.strVal ("NotImplementedError: s_unistring_variable is not currently implemented, arguments were"))

def s_xdr_string : String → Except PyExn String :=
  custom_raise (PyCallable.excClass ("ValueError"))
    (PyCallable.strVal ("LegoNotUtilizedError: XDR strings are available in the XDR lego, arguments were"))

def sizerMsg : PyCallable :=
  PyCallable.strVal ("SizerNotUtilizedError: Use the s_size primitive for including sizes, arguments were")

def s_binary_block_size_intel_halfword_plus_variable : String → Except PyExn String :=
  custom_raise (PyCallable.excClass ("ValueError")) sizerMsg

def s_binary_block_size_halfword_bigendian_variable : String → Except PyExn String :=
  custom_raise (PyCallable.excClass ("ValueError")) sizerMsg

def s_binary_block_size_word_bigendian_plussome : String → Except PyExn String :=
  custom_raise (PyCallable.excClass ("ValueError")) sizerMsg

def s_binary_block_size_word_bigendian_variable : String → Except PyExn String :=
  custom_raise (PyCallable.excClass ("ValueError")) sizerMsg

def s_binary_block_size_halfword_bigendian_mult : String → Except PyExn String :=
  custom_raise (PyCallable.excClass ("ValueError")) sizerMsg

def s_binary_block_size_intel_halfword_variable : String → Except PyExn String :=
  custom_raise (PyCallable.excClass ("ValueError")) sizerMsg

def s_binary_block_size_intel_halfword_mult : String → Except PyExn String :=
  custom_raise (PyCallable.excClass ("ValueError")) sizerMsg

def s_binary_block_size_intel_halfword_plus : String → Except PyExn String :=
  custom_raise (PyCallable.excClass ("ValueError")) sizerMsg

def s_binary_block_size_halfword_bigendian : String → Except PyExn String :=
  custom_raise (PyCallable.excClass ("ValueError")) sizerMsg

def s_binary_block_size_word_intel_mult_plus : String → Except PyExn String :=
  custom_raise (PyCallable.excClass ("ValueError")) sizerMsg

def s_binary_block_size_intel_word_variable : String → Except PyExn String :=
  custom_raise (PyCallable.excClass ("ValueError")) sizerMsg

def s_binary_block_size_word_bigendian_mult : String → Except PyExn String :=
  custom_raise (PyCallable.excClass ("ValueError")) sizerMsg

def s_blocksize_unsigned_string_variable : String → Except PyExn String :=
  custom_raise (PyCallable.excClass ("ValueError")) sizerMsg

def s_binary_block_size_intel_word_plus : String → Except PyExn String :=
  custom_raise (PyCallable.excClass ("ValueError")) sizerMsg

def s_binary_block_size_intel_halfword : String → Except PyExn String :=
  custom_raise (PyCallable.excClass ("ValueError")) sizerMsg

def s_binary_block_size_word_bigendian : String → Except PyExn String :=
  custom_raise (PyCallable.excClass ("ValueError")) sizerMsg

def s_blocksize_signed_string_variable : String → Except PyExn String :=
  custom_raise (PyCallable.excClass ("ValueError")) sizerMsg

def s_binary_block_size_byte_variable : String → Except PyExn String :=
  custom_raise (PyCallable.excClass ("ValueError")) sizerMsg

def s_binary_block_size_intel_word : String → Except PyExn String :=
  custom_raise (PyCallable.excClass ("ValueError")) sizerMsg

def s_binary_block_size_byte_plus : String → Except PyExn String :=
  custom_raise (PyCallable.excClass ("ValueError")) sizerMsg

def s_binary_block_size_byte_mult : String → Except PyExn String :=
  custom_raise (PyCallable.excClass ("ValueError")) sizerMsg

def s_blocksize_asciihex_variable : String → Except PyExn String :=
  custom_raise (PyCallable.excClass ("ValueError")) sizerMsg

def s_binary_block_size_byte : String → Except PyExn String :=
  custom_raise (PyCallable.excClass ("ValueError")) sizerMsg

def s_blocksize_asciihex : String → Except PyExn String :=
  custom_raise (PyCallable.excClass ("ValueError")) sizerMsg

def s_blocksize_string : String → Except PyExn String :=
  custom_raise (PyCallable.excClass ("ValueError")) sizerMsg

/-! ## Helper lemmas for the CRC equivalence -/

theorem crcByteRound_eq_spec (c j crc : Nat) :
    crcByteRound c j crc = specShiftRound crc (c &&& j) := by
  by_cases hb : c &&& j = 0
  · simp [crcByteRound, specShiftRound, hb]
  · simp [crcByteRound, specShiftRound, hb]

theorem crcInnerLoop_unfold (rc crc : Nat) :
    crcInnerLoop 16 rc 0x80 crc =
      crcByteRound rc 1 (crcByteRound rc 2 (crcByteRound rc 4 (crcByteRound rc 8
        (crcByteRound rc 16 (crcByteRound rc 32 (crcByteRound rc 64
          (crcByteRound rc 128 crc))))))) :=
  rfl

theorem specFeedByte_unfold (c crc : Nat) :
    specFeedByte 8 crc c =
      specShiftRound (specShiftRound (specShiftRound (specShiftRound
        (specShiftRound (specShiftRound (specShiftRound (specShiftRound crc
          (reflect c 8 &&& 128)) (reflect c 8 &&& 64)) (reflect c 8 &&& 32))
          (reflect c 8 &&& 16)) (reflect c 8 &&& 8)) (reflect c 8 &&& 4))
          (reflect c 8 &&& 2)) (reflect c 8 &&& 1) :=
  rfl

theorem crcInnerLoop_eq_specFeedByte (c crc : Nat) :
    crcInnerLoop 16 (reflect c 8) 0x80 crc = specFeedByte 8 crc c := by
  rw [crcInnerLoop_unfold, specFeedByte_unfold]
  simp only [crcByteRound_eq_spec]

theorem fold_bytes_eq (p : List Nat) : ∀ crc : Nat,
    p.foldl (fun crc c => crcInnerLoop 16 (reflect c 8) 0x80 crc) crc =
    p.foldl (fun crc c => specFeedByte 8 crc c) crc := by
  intro crc
  simp only [crcInnerLoop_eq_specFeedByte]

theorem testBit_eq_of_mod16 {x y : Nat} (h : x % 2 ^ 16 = y % 2 ^ 16)
    {i : Nat} (hi : i < 16) : x.testBit i = y.testBit i := by
  have hx : (x % 2 ^ 16).testBit i = (y % 2 ^ 16).testBit i := by rw [h]
  rw [Nat.testBit_mod_two_pow, Nat.testBit_mod_two_pow] at hx
  simpa [hi] using hx

theorem and_pow_eq_of_mod16 {x y : Nat} (h : x % 2 ^ 16 = y % 2 ^ 16)
    {k : Nat} (hk : k < 16) : x &&& 2 ^ k = y &&& 2 ^ k := by
  apply Nat.eq_of_testBit_eq
  intro i
  simp only [Nat.testBit_and, Nat.testBit_two_pow]
  by_cases hik : k = i
  · subst hik
    simp [testBit_eq_of_mod16 h hk]
  · simp [hik]

theorem xor_mod16_congr {x y : Nat} (c : Nat) (h : x % 2 ^ 16 = y % 2 ^ 16) :
    (x ^^^ c) % 2 ^ 16 = (y ^^^ c) % 2 ^ 16 := by
  apply Nat.eq_of_testBit_eq
  intro i
  simp only [Nat.testBit_mod_two_pow, Nat.testBit_xor]
  by_cases hi : i < 16
  · simp [hi, testBit_eq_of_mod16 h hi]
  · simp [hi]

theorem trail_round_congr {x y : Nat} (h : x % 2 ^ 16 = y % 2 ^ 16) :
    crcTrailRound x % 2 ^ 16 = specShiftRound y 0 % 2 ^ 16 := by
  have hbit : x &&& 0x8000 = y &&& 0x8000 := by
    have h15 := and_pow_eq_of_mod16 h (k := 15) (by norm_num)
    norm_num at h15
    exact h15
  have hshift : (x <<< 1) % 2 ^ 16 = (((y <<< 1) &&& 0xFFFF) ||| 0) % 2 ^ 16 := by
    rw [Nat.or_zero, Nat.shiftLeft_eq, Nat.shiftLeft_eq]
    have hmask : (y * 2 ^ 1) &&& 0xFFFF = (y * 2 ^ 1) % 2 ^ 16 := by
      have hm := Nat.and_pow_two_sub_one_eq_mod (y * 2 ^ 1) 16
      norm_num at hm ⊢
      exact hm
    rw [hmask]
    norm_num at h ⊢
    omega
  simp only [crcTrailRound, specShiftRound, ← hbit]
  by_cases hb : x &&& 0x8000 = 0
  · simpa [hb] using hshift
  · simpa [hb] using xor_mod16_congr 0x1021 hshift

theorem trail_fold_congr : ∀ (n : Nat) {x y : Nat}, x % 2 ^ 16 = y % 2 ^ 16 →
    ((List.range n).foldl (fun crc _ => crcTrailRound crc) x) % 2 ^ 16 =
    ((List.range n).foldl (fun crc _ => specShiftRound crc 0) y) % 2 ^ 16 := by
  intro n
  induction n with
  | zero => intro x y h; simpa using h
  | succ m ih =>
    intro x y h
    rw [List.range_succ, List.foldl_append, List.foldl_append]
    simp only [List.foldl_cons, List.foldl_nil]
    exact trail_round_congr (ih h)

theorem reflect_congr {x y : Nat} (h : x % 2 ^ 16 = y % 2 ^ 16) :
    reflect x 16 = reflect y 16 := by
  unfold reflect
  congr 1
  apply List.foldl_ext
  intro st b hb
  have hblt : b < 16 := List.mem_range.mp hb
  have hcond : x &&& 1 <<< (16 - 1 - b) = y &&& 1 <<< (16 - 1 - b) := by
    rw [Nat.shiftLeft_eq, one_mul]
    exact and_pow_eq_of_mod16 h (by omega)
  simp only [hcond]

theorem crcbitbybit_eq_spec8 (p : List Nat) :
    crcbitbybit p = crc16_spec_reference 8 p := by
  unfold crcbitbybit crc16_spec_reference
  rw [fold_bytes_eq]
  exact reflect_congr (trail_fold_congr 16 rfl)

/-! ## Claim C1 -/

set_option maxRecDepth 4000 in
/-- C1 counterexample: the claim reads the inner loop as running 16 shift
rounds per input byte, but the `if j == 0: break` stops it after 8; on the
one-byte input `"\x01"` the code value differs from the claimed 16-round
reference construction. -/
theorem c1_counterexample : crcbitbybit [1] ≠ crc16_spec_reference 16 [1] := by
  decide

/-- C1 (amended): for every byte sequence `p`, `crcbitbybit p` equals the
16-bit CCITT reference value obtained by the bit-by-bit construction with 8
shift rounds per input byte (reflect each input byte, shift its 8 bits into a
16-bit register with initial value 0, polynomial 0x1021, XOR on the
carried-out bit), followed by 16 trailing zero-shift rounds and a final
bit-reflection of the 16-bit result. -/
theorem c1_crcbitbybit_matches_reference (p : List Nat) :
    crcbitbybit p = crc16_spec_reference 8 p :=
  crcbitbybit_eq_spec8 p

/-! ## Claims C2, C3, C4 -/

set_option maxRecDepth 8000 in
/-- C2: on the claimed inputs (250-byte and 251-byte payloads) `dnp3` never
reaches the fragmentation-flag logic: building the very first segment header
passes the `CRC16` instance itself to `struct.pack("<H", ...)`, which raises,
so no segment (and no flag byte 0xC0 / 0x40 / 0x81) is ever produced. -/
theorem c2_dnp3_raises_before_flags :
    dnp3 (List.replicate 250 0) [0x44] [0, 0] [0, 0] =
      Except.error ("cannot convert argument to integer") ∧
    dnp3 (List.replicate 251 0) [0x44] [0, 0] [0, 0] =
      Except.error ("cannot convert argument to integer") :=
  ⟨rfl, rfl⟩

set_option maxRecDepth 8000 in
/-- C3: even on a one-byte payload (one expected segment) `dnp3` raises while
computing the header checksum — `struct.pack("<H", CRC16(string=p))` is given
the `CRC16` object, not its integer value — so the claimed header layout is
never emitted. -/
theorem c3_dnp3_raises_on_header_checksum :
    dnp3 [0x41] [0x44] [0, 0] [0, 0] =
      Except.error ("cannot convert argument to integer") :=
  rfl

set_option maxRecDepth 8000 in
/-- C4: `dnp3` raises before emitting any chunk, and moreover the chunk
expression of scada.py line 42 indexes the slice by the segment counter `i`
instead of the chunk counter `x`: within segment 0 of a 32-byte payload both
chunks would be the first 16 bytes, not consecutive 16-byte chunks. -/
theorem c4_dnp3_chunking_wrong :
    dnp3 (List.range 32) [0x44] [0, 0] [0, 0] =
      Except.error ("cannot convert argument to integer") ∧
    dnp3_chunk (List.range 32) 0 0 = dnp3_chunk (List.range 32) 0 1 ∧
    dnp3_chunk (List.range 32) 0 1 ≠ ((List.range 32).drop 16).take 16 :=
  ⟨rfl, rfl, by decide⟩

/-! ## Claim C10 -/

theorem reflect_fold_bound (crc bitnum : Nat) : ∀ (l : List Nat) (e cr : Nat),
    cr < 2 ^ e →
    ((l.foldl
      (fun st b =>
        let i := 1 <<< (bitnum - 1 - b)
        (st.1 <<< 1, if crc &&& i ≠ 0 then st.2 ||| st.1 else st.2))
      (2 ^ e, cr)).2 < 2 ^ (e + l.length)) := by
  intro l
  induction l with
  | nil => intro e cr h; simpa using h
  | cons b t ih =>
    intro e cr h
    have hpos : 0 < 2 ^ e := Nat.pow_pos (by norm_num)
    have hlt : 2 ^ e < 2 ^ (e + 1) := by rw [Nat.pow_succ]; omega
    have hshl : (2 ^ e) <<< 1 = 2 ^ (e + 1) := by
      rw [Nat.shiftLeft_eq]
      ring
    have hcr : (if crc &&& 1 <<< (bitnum - 1 - b) ≠ 0 then cr ||| 2 ^ e else cr)
        < 2 ^ (e + 1) := by
      by_cases hc : crc &&& 1 <<< (bitnum - 1 - b) ≠ 0
      · rw [if_pos hc]
        exact Nat.or_lt_two_pow (lt_trans h hlt) hlt
      · rw [if_neg hc]
        exact lt_trans h hlt
    have step := ih (e + 1) _ hcr
    rw [← hshl] at step
    simpa [Nat.add_assoc, Nat.add_comm 1 t.length] using step

theorem reflect_lt_two_pow (crc bitnum : Nat) : reflect crc bitnum < 2 ^ bitnum := by
  unfold reflect
  have h := reflect_fold_bound crc bitnum (List.range bitnum) 0 0 (by norm_num)
  simpa using h

theorem crcbitbybit_lt (p : List Nat) : crcbitbybit p < 65536 := by
  have h := reflect_lt_two_pow
    ((List.range 16).foldl (fun crc _ => crcTrailRound crc)
      (p.foldl (fun crc c => crcInnerLoop 16 (reflect c 8) 0x80 crc) 0)) 16
  norm_num at h
  exact h

/-- C10: `crcbitbybit` always yields a value below 2^16; the `CRC16` class
preserves this bound through construction, `update` and `copy`; `checksum()`
is exactly the two bytes of `val` in big-endian order; `intchecksum()` is
`val`; and an instance built from the empty string has `val = 0`. -/
theorem c10_crc16_invariants :
    (∀ p : List Nat, crcbitbybit p < 65536) ∧
    (∀ s : List Nat, (CRC16_init s).val < 65536) ∧
    (∀ (o : CRC16c) (s : List Nat), (CRC16_update o s).val < 65536) ∧
    (∀ o : CRC16c, o.val < 65536 → (CRC16_copy o).val < 65536) ∧
    (∀ o : CRC16c, o.val < 65536 →
      CRC16_checksum o = Except.ok [o.val / 256, o.val % 256]) ∧
    (∀ o : CRC16c, CRC16_intchecksum o = o.val) ∧
    (CRC16_init []).val = 0 := by
  refine ⟨crcbitbybit_lt, ?_, ?_, ?_, ?_, fun o => rfl, rfl⟩
  · intro s
    by_cases hs : s = []
    · simp [CRC16_init, hs]
    · simpa [CRC16_init, hs] using crcbitbybit_lt s
  · intro o s
    simpa [CRC16_update] using crcbitbybit_lt s
  · intro o h
    simpa [CRC16_copy] using h
  · intro o h
    have hhi : o.val >>> 8 = o.val / 256 := by
      rw [Nat.shiftRight_eq_div_pow]
    have hlo : o.val &&& 0xff = o.val % 256 := by
      have hm := Nat.and_pow_two_sub_one_eq_mod o.val 8
      norm_num at hm
      exact hm
    have hhi_lt : o.val / 256 < 256 := by omega
    have hlo_lt : o.val % 256 < 256 := by omega
    have hck : CRC16_checksum o = Except.ok ([o.val / 256] ++ [o.val % 256]) := by
      unfold CRC16_checksum
      rw [hhi, hlo]
      unfold pyChr
      rw [if_pos hhi_lt, if_pos hlo_lt]
      rfl
    simpa using hck

/-! ## Claim C5 -/

theorem toksChars_cons (a : HexTok) (r : List HexTok) :
    toksChars (a :: r) = a.chars ++ toksChars r := by
  simp [toksChars]

theorem removeChar_append (t : Char) (a b : List Char) :
    removeChar t (a ++ b) = removeChar t a ++ removeChar t b := by
  induction a with
  | nil => rfl
  | cons c r ih => by_cases h : c = t <;> simp [removeChar, h, ih]

theorem cleaned1_append (a b : List Char) :
    cleaned1 (a ++ b) = cleaned1 a ++ cleaned1 b := by
  simp [cleaned1, removeChar_append]

theorem hexVal_not_special {c : Char} (h : (hexVal c).isSome = true) :
    c ≠ ' ' ∧ c ≠ '\t' ∧ c ≠ '\r' ∧ c ≠ '\n' ∧ c ≠ ',' ∧ c ≠ 'x' ∧ c ≠ '\\' := by
  refine ⟨?_, ?_, ?_, ?_, ?_, ?_, ?_⟩ <;> (intro hc; subst hc; revert h; decide)

theorem cleaned1_tok (a : HexTok) (ha : goodTok a = true) :
    cleaned1 a.chars = (if isKeptTok a then a.chars else []) := by
  cases a with
  | pair x y =>
    simp only [goodTok, Bool.and_eq_true] at ha
    obtain ⟨hx, hy⟩ := ha
    obtain ⟨hx1, hx2, hx3, hx4, hx5, _, _⟩ := hexVal_not_special hx
    obtain ⟨hy1, hy2, hy3, hy4, hy5, _, _⟩ := hexVal_not_special hy
    simp [cleaned1, removeChar, HexTok.chars, isKeptTok,
      hx1, hx2, hx3, hx4, hx5, hy1, hy2, hy3, hy4, hy5]
  | sep0x => decide
  | sepbx => decide
  | sepSpace => decide
  | sepTab => decide
  | sepComma => decide

theorem cleaned1_toks (ts : List HexTok) (h : ∀ t ∈ ts, goodTok t = true) :
    cleaned1 (toksChars ts) = toksChars (ts.filter isKeptTok) := by
  induction ts with
  | nil => rfl
  | cons a r ih =>
    have ha := h a (List.mem_cons_self a r)
    have hr := fun t ht => h t (List.mem_cons_of_mem a ht)
    rw [toksChars_cons, cleaned1_append, ih hr, cleaned1_tok a ha]
    by_cases hk : isKeptTok a = true
    · simp [hk, List.filter_cons, toksChars_cons]
    · simp [hk, List.filter_cons]

theorem remove0x_cons_of {c : Char} {s : List Char}
    (h : c ≠ '0' ∨ s.head? ≠ some 'x') :
    remove0x (c :: s) = c :: remove0x s := by
  cases s with
  | nil => rfl
  | cons d r =>
    have hcond : ¬(c = '0' ∧ d = 'x') := by
      rcases h with h | h
      · exact fun hc => h hc.1
      · exact fun hc => h (by simp [hc.2])
    simp [remove0x, hcond]

theorem toksChars_head_ne_x (ts : List HexTok) (h : ∀ t ∈ ts, goodTok t = true) :
    (toksChars ts).head? ≠ some 'x' := by
  cases ts with
  | nil => simp [toksChars]
  | cons a r =>
    rw [toksChars_cons]
    cases a with
    | pair x y =>
      have hx : (hexVal x).isSome = true := by
        have hg := h (HexTok.pair x y) (List.mem_cons_self _ _)
        simp only [goodTok, Bool.and_eq_true] at hg
        exact hg.1
      have hxx := (hexVal_not_special hx).2.2.2.2.2.1
      simp [HexTok.chars, hxx]
    | sep0x => simp [HexTok.chars]
    | sepbx => simp [HexTok.chars]
    | sepSpace => simp [HexTok.chars]
    | sepTab => simp [HexTok.chars]
    | sepComma => simp [HexTok.chars]

theorem remove0x_toks (ts : List HexTok) (h : ∀ t ∈ ts, goodTok t = true)
    (hk : ∀ t ∈ ts, isKeptTok t = true) :
    remove0x (toksChars ts) = toksChars (ts.filter notSep0x) := by
  induction ts with
  | nil => rfl
  | cons a r ih =>
    have hka := hk a (List.mem_cons_self a r)
    have hr := fun t ht => h t (List.mem_cons_of_mem a ht)
    have hkr := fun t ht => hk t (List.mem_cons_of_mem a ht)
    have hheadr := toksChars_head_ne_x r hr
    rw [toksChars_cons]
    cases a with
    | pair x y =>
      have ha := h (HexTok.pair x y) (List.mem_cons_self _ r)
      simp only [goodTok, Bool.and_eq_true] at ha
      obtain ⟨hx, hy⟩ := ha
      have hyx := (hexVal_not_special hy).2.2.2.2.2.1
      have h1 : remove0x (x :: y :: toksChars r) = x :: remove0x (y :: toksChars r) :=
        remove0x_cons_of (Or.inr (by simp [hyx]))
      have h2 : remove0x (y :: toksChars r) = y :: remove0x (toksChars r) :=
        remove0x_cons_of (Or.inr hheadr)
      simp [HexTok.chars, h1, h2, ih hr hkr, List.filter_cons, notSep0x, toksChars_cons]
    | sep0x =>
      simp [HexTok.chars, remove0x, ih hr hkr, List.filter_cons, notSep0x]
    | sepbx =>
      have h1 : remove0x ('\\' :: 'x' :: toksChars r) = '\\' :: remove0x ('x' :: toksChars r) :=
        remove0x_cons_of (Or.inl (by decide))
      have h2 : remove0x ('x' :: toksChars r) = 'x' :: remove0x (toksChars r) :=
        remove0x_cons_of (Or.inl (by decide))
      simp [HexTok.chars, h1, h2, ih hr hkr, List.filter_cons, notSep0x, toksChars_cons]
    | sepSpace => simp [isKeptTok] at hka
    | sepTab => simp [isKeptTok] at hka
    | sepComma => simp [isKeptTok] at hka

theorem removeBx_cons_of {c : Char} {s : List Char} (h : c ≠ '\\') :
    removeBx (c :: s) = c :: removeBx s := by
  cases s with
  | nil => rfl
  | cons d r =>
    have hcond : ¬(c = '\\' ∧ d = 'x') := fun hc => h hc.1
    simp [removeBx, hcond]

theorem removeBx_toks (ts : List HexTok) (h : ∀ t ∈ ts, goodTok t = true)
    (hp : ∀ t ∈ ts, pairOrBx t = true) :
    removeBx (toksChars ts) = toksChars (ts.filter notSepbx) := by
  induction ts with
  | nil => rfl
  | cons a r ih =>
    have hpa := hp a (List.mem_cons_self a r)
    have hr := fun t ht => h t (List.mem_cons_of_mem a ht)
    have hpr := fun t ht => hp t (List.mem_cons_of_mem a ht)
    rw [toksChars_cons]
    cases a with
    | pair x y =>
      have ha := h (HexTok.pair x y) (List.mem_cons_self _ r)
      simp only [goodTok, Bool.and_eq_true] at ha
      obtain ⟨hx, hy⟩ := ha
      have hxb := (hexVal_not_special hx).2.2.2.2.2.2
      have hyb := (hexVal_not_special hy).2.2.2.2.2.2
      have h1 : removeBx (x :: y :: toksChars r) = x :: removeBx (y :: toksChars r) :=
        removeBx_cons_of hxb
      have h2 : removeBx (y :: toksChars r) = y :: removeBx (toksChars r) :=
        removeBx_cons_of hyb
      simp [HexTok.chars, h1, h2, ih hr hpr, List.filter_cons, notSepbx, toksChars_cons]
    | sepbx =>
      simp [HexTok.chars, removeBx, ih hr hpr, List.filter_cons, notSepbx]
    | sep0x => simp [pairOrBx] at hpa
    | sepSpace => simp [pairOrBx] at hpa
    | sepTab => simp [pairOrBx] at hpa
    | sepComma => simp [pairOrBx] at hpa

theorem toksBytes_cons_pair (x y : Char) (r : List HexTok) :
    toksBytes (HexTok.pair x y :: r) = pairVal x y :: toksBytes r := by
  simp [toksBytes, List.filterMap_cons]

theorem toksBytes_cons_sep (a : HexTok) (ha : HexTok.isPair a = false) (r : List HexTok) :
    toksBytes (a :: r) = toksBytes r := by
  cases a <;> simp_all [toksBytes, List.filterMap_cons, HexTok.isPair]

theorem parsePairs_toks (ts : List HexTok) (h : ∀ t ∈ ts, goodTok t = true)
    (hp : ∀ t ∈ ts, HexTok.isPair t = true) :
    parsePairs (toksChars ts) = some (toksBytes ts) := by
  induction ts with
  | nil => rfl
  | cons a r ih =>
    have hpa := hp a (List.mem_cons_self a r)
    have hr := fun t ht => h t (List.mem_cons_of_mem a ht)
    have hpr := fun t ht => hp t (List.mem_cons_of_mem a ht)
    rw [toksChars_cons]
    cases a with
    | pair x y =>
      have ha := h (HexTok.pair x y) (List.mem_cons_self _ r)
      simp only [goodTok, Bool.and_eq_true] at ha
      obtain ⟨hx, hy⟩ := ha
      obtain ⟨da, hda⟩ := Option.isSome_iff_exists.mp hx
      obtain ⟨db, hdb⟩ := Option.isSome_iff_exists.mp hy
      have hv : pyInt16 [x, y] = some (pairVal x y) := by
        simp [pyInt16, pyInt16Aux, hda, hdb, pairVal]
      simp [HexTok.chars, parsePairs, hv, ih hr hpr, toksBytes_cons_pair]
    | sep0x => simp [HexTok.isPair] at hpa
    | sepbx => simp [HexTok.isPair] at hpa
    | sepSpace => simp [HexTok.isPair] at hpa
    | sepTab => simp [HexTok.isPair] at hpa
    | sepComma => simp [HexTok.isPair] at hpa

theorem toksBytes_filter (f : HexTok → Bool) (hf : ∀ x y, f (HexTok.pair x y) = true)
    (ts : List HexTok) : toksBytes (ts.filter f) = toksBytes ts := by
  induction ts with
  | nil => rfl
  | cons a r ih =>
    cases a with
    | pair x y =>
      rw [List.filter_cons, if_pos (hf x y), toksBytes_cons_pair, toksBytes_cons_pair, ih]
    | sep0x =>
      by_cases hfa : f HexTok.sep0x = true <;>
        simp [List.filter_cons, hfa, toksBytes_cons_sep HexTok.sep0x rfl, ih]
    | sepbx =>
      by_cases hfa : f HexTok.sepbx = true <;>
        simp [List.filter_cons, hfa, toksBytes_cons_sep HexTok.sepbx rfl, ih]
    | sepSpace =>
      by_cases hfa : f HexTok.sepSpace = true <;>
        simp [List.filter_cons, hfa, toksBytes_cons_sep HexTok.sepSpace rfl, ih]
    | sepTab =>
      by_cases hfa : f HexTok.sepTab = true <;>
        simp [List.filter_cons, hfa, toksBytes_cons_sep HexTok.sepTab rfl, ih]
    | sepComma =>
      by_cases hfa : f HexTok.sepComma = true <;>
        simp [List.filter_cons, hfa, toksBytes_cons_sep HexTok.sepComma rfl, ih]

theorem isPair_of_kept (t : HexTok) (hk : isKeptTok t = true) (h0 : notSep0x t = true)
    (hb : notSepbx t = true) : HexTok.isPair t = true := by
  cases t <;> simp_all [isKeptTok, notSep0x, notSepbx, HexTok.isPair]

theorem pairOrBx_of_kept (t : HexTok) (hk : isKeptTok t = true) (h0 : notSep0x t = true) :
    pairOrBx t = true := by
  cases t <;> simp_all [isKeptTok, notSep0x, pairOrBx]

theorem s_binary_parse_toks (ts : List HexTok) (h : ∀ t ∈ ts, goodTok t = true) :
    s_binary_parse (toksChars ts) = some (toksBytes ts) := by
  have h1 : ∀ t ∈ ts.filter isKeptTok, goodTok t = true :=
    fun t ht => h t (List.mem_of_mem_filter ht)
  have hk1 : ∀ t ∈ ts.filter isKeptTok, isKeptTok t = true :=
    fun t ht => List.of_mem_filter ht
  have h2 : ∀ t ∈ (ts.filter isKeptTok).filter notSep0x, goodTok t = true :=
    fun t ht => h1 t (List.mem_of_mem_filter ht)
  have hp2 : ∀ t ∈ (ts.filter isKeptTok).filter notSep0x, pairOrBx t = true :=
    fun t ht => pairOrBx_of_kept t (hk1 t (List.mem_of_mem_filter ht)) (List.of_mem_filter ht)
  have h3 : ∀ t ∈ ((ts.filter isKeptTok).filter notSep0x).filter notSepbx, goodTok t = true :=
    fun t ht => h2 t (List.mem_of_mem_filter ht)
  have hp3 : ∀ t ∈ ((ts.filter isKeptTok).filter notSep0x).filter notSepbx,
      HexTok.isPair t = true :=
    fun t ht => isPair_of_kept t
      (hk1 t (List.mem_of_mem_filter (List.mem_of_mem_filter ht)))
      (List.of_mem_filter (List.mem_of_mem_filter ht))
      (List.of_mem_filter ht)
  have hchain : s_binary_parse (toksChars ts) =
      parsePairs (removeBx (remove0x (cleaned1 (toksChars ts)))) := rfl
  rw [hchain, cleaned1_toks ts h, remove0x_toks _ h1 hk1, removeBx_toks _ h2 hp2,
    parsePairs_toks _ h3 hp3,
    toksBytes_filter notSepbx (fun _ _ => rfl),
    toksBytes_filter notSep0x (fun _ _ => rfl),
    toksBytes_filter isKeptTok (fun _ _ => rfl)]

/-- C5: for every sequence of hexadecimal digit pairs with any of the
separators `"0x"`, `"\\x"`, spaces, tabs and commas interspersed, the byte
sequence `s_binary` parses (and pushes as a `static` primitive) is the pairs'
bytes, and is therefore identical to the parse of the same digits with all
separators stripped. -/
theorem c5_s_binary_separator_invariance (ts : List HexTok)
    (h : ∀ t ∈ ts, goodTok t = true) :
    s_binary_parse (toksChars ts) = some (toksBytes ts) ∧
    s_binary_parse (toksChars ts) = s_binary_parse (toksDigits ts) := by
  have hmain := s_binary_parse_toks ts h
  have hd : ∀ t ∈ ts.filter HexTok.isPair, goodTok t = true :=
    fun t ht => h t (List.mem_of_mem_filter ht)
  have hdig := s_binary_parse_toks (ts.filter HexTok.isPair) hd
  refine ⟨hmain, ?_⟩
  rw [hmain, toksDigits, hdig, toksBytes_filter HexTok.isPair (fun _ _ => rfl)]

/-- C5 witness: the invariance theorem applied to the concrete token sequence
`0x41 f2\x0a,` (digit pairs `41`, `f2`, `0a` with all five separator kinds
interspersed). -/
theorem c5_witness :
    s_binary_parse (toksChars [HexTok.sep0x, HexTok.pair '4' '1', HexTok.sepSpace,
        HexTok.pair 'f' '2', HexTok.sepbx, HexTok.pair '0' 'a', HexTok.sepComma,
        HexTok.sepTab]) =
      s_binary_parse (toksDigits [HexTok.sep0x, HexTok.pair '4' '1', HexTok.sepSpace,
        HexTok.pair 'f' '2', HexTok.sepbx, HexTok.pair '0' 'a', HexTok.sepComma,
        HexTok.sepTab]) :=
  (c5_s_binary_separator_invariance _ (by decide)).2

/-- C10 witness: the invariant theorem applied at a concrete instance,
discharging the embedded hypotheses at `val = 0x1234`. -/
theorem c10_witness :
    CRC16_checksum { val := 0x1234 } = Except.ok [0x12, 0x34] ∧
    (CRC16_copy { val := 0x1234 }).val < 65536 := by
  have h := c10_crc16_invariants
  exact ⟨by simpa using h.2.2.2.2.1 { val := 0x1234 } (by norm_num),
    h.2.2.2.1 { val := 0x1234 } (by norm_num)⟩

/-! ## Claims C6, C7, C8, C9 -/

theorem alookup_append_self {α : Type} (l : List (String × α)) (k : String) (v : α)
    (h : alookup l k = none) : alookup (l ++ [(k, v)]) k = some v := by
  induction l with
  | nil => simp [alookup]
  | cons p t ih =>
    obtain ⟨a, b⟩ := p
    by_cases hp : a = k
    · simp [alookup, hp] at h
    · simp [alookup, hp] at h
      simpa [alookup, hp] using ih h

theorem alookup_aset_self {α : Type} (l : List (String × α)) (k : String) (v : α)
    (h : (alookup l k).isSome = true) : alookup (aset l k v) k = some v := by
  induction l with
  | nil => simp [alookup] at h
  | cons p t ih =>
    obtain ⟨a, b⟩ := p
    by_cases hp : a = k
    · simp [aset, alookup, hp]
    · simp [alookup, hp] at h
      simpa [aset, alookup, hp] using ih h

theorem alookup_aset_other {α : Type} (l : List (String × α)) (k other : String)
    (v : α) (h : other ≠ k) : alookup (aset l k v) other = alookup l other := by
  induction l with
  | nil => simp [aset]
  | cons p t ih =>
    obtain ⟨a, b⟩ := p
    by_cases hp : a = k
    · have hko : ¬(k = other) := fun hh => h hh.symm
      have hao : ¬(a = other) := by rw [hp]; exact hko
      simp [aset, alookup, hp, hao, hko]
    · simp [aset, alookup, hp, ih]

theorem pyEq_guard_never_fires (s : String) (l : List Item) :
    l.any (pyEq_str_block s) = false := by
  induction l with
  | nil => rfl
  | cons a t ih => simp [List.any_cons, pyEq_str_block, ih]

theorem custom_raise_raises (argument msg : PyCallable) (x : String) :
    ∃ e, custom_raise argument msg x = Except.error e := by
  cases argument <;> cases msg <;> exact ⟨_, rfl⟩

/-- C6: `s_initialize(name)` fails with a DuplicateName error exactly when a
request with that name is already registered; the error carries the entry
state, so the registry and the current-request selector are unmodified on
failure; on success a fresh empty request is registered under the name and
becomes the current request. -/
theorem c6_s_initialize_spec (name : String) (g : GState) :
    ((alookup g.REQUESTS name).isSome = true →
      s_initialize name g =
        Except.error
          (SulleyError.DuplicateName ("blocks.REQUESTS ALREADY EXISTS: " ++ name),
            g)) ∧
    (alookup g.REQUESTS name = none →
      s_initialize name g =
        Except.ok { REQUESTS := g.REQUESTS ++ [(name, blocks_request name)],
                    CURRENT := some name } ∧
      alookup (g.REQUESTS ++ [(name, blocks_request name)]) name =
        some (blocks_request name) ∧
      (blocks_request name).stack = [] ∧
      (blocks_request name).block_stack = [] ∧
      (blocks_request name).names = []) := by
  constructor
  · intro h
    simp [ s_initialize, h]
  · intro h
    exact ⟨by simp [ s_initialize, h], alookup_append_self _ _ _ h, rfl, rfl, rfl⟩

/-- C6 witness: registering a fresh name in the empty state succeeds with the
empty request current, by the theorem at concrete inputs. -/
theorem c6_witness :
    s_initialize ("HTTP") { REQUESTS := [], CURRENT := none } =
      Except.ok { REQUESTS := [("HTTP", blocks_request ("HTTP"))],
                  CURRENT := some ("HTTP") } := by
  have h := (c6_s_initialize_spec ("HTTP") { REQUESTS := [], CURRENT := none }).2 rfl
  simpa using h.1

/-- C7: declaring a Checksum, Sizer or Repeat whose target names a Block on
the current request's open-block stack fails at declaration time with a
DanglingReference error, and declaring one against a name unknown to the
request fails with NotFound; in each case the error carries the entry state,
so nothing is pushed onto the current request.  (The in-src stack guard of
`s_checksum` and `s_size` compares the name string against the Block objects
on the stack and never fires; the failures come from the spec-modelled
blocks-module constructors.) -/
theorem c7_modifier_declaration_errors (block_name algorithm endian format : String)
    (length : Nat) (offset : Int) (inclusive signed fz : Bool)
    (min_reps step : Nat) (max_reps : Option Nat) (nm : Option String)
    (g : GState) (cur : Request) (hcur : getCurrent g = some cur) :
    (cur.block_stack.any (fun b => b.nameOf == some block_name) = true →
      s_checksum block_name algorithm length endian nm g =
        Except.error (SulleyError.DanglingReference block_name, g) ∧
      s_size block_name offset length endian format inclusive signed fz nm g =
        Except.error (SulleyError.DanglingReference block_name, g) ∧
      s_repeat block_name min_reps max_reps step fz nm g =
        Except.error (SulleyError.DanglingReference block_name, g)) ∧
    (cur.block_stack.any (fun b => b.nameOf == some block_name) = false →
      alookup cur.names block_name = none →
      s_checksum block_name algorithm length endian nm g =
        Except.error (SulleyError.NotFound block_name, g) ∧
      s_size block_name offset length endian format inclusive signed fz nm g =
        Except.error (SulleyError.NotFound block_name, g) ∧
      s_repeat block_name min_reps max_reps step fz nm g =
        Except.error (SulleyError.NotFound block_name, g)) := by
  constructor
  · intro hopen
    refine ⟨?_, ?_, ?_⟩ <;>
      simp [ s_checksum, s_size, s_repeat, hcur, pyEq_guard_never_fires,
        blocks_checksum, blocks_size, blocks_repeat, hopen]
  · intro hopen hun
    refine ⟨?_, ?_, ?_⟩ <;>
      simp [ s_checksum, s_size, s_repeat, hcur, pyEq_guard_never_fires,
        blocks_checksum, blocks_size, blocks_repeat, hopen, hun]

/-- C7 witness: with block `A` still open, `s_repeat` targeting `A` fails
with DanglingReference and the state is carried unchanged; with no open
block, `s_checksum` targeting the unknown `Z` fails with NotFound. -/
theorem c7_witness :
    s_repeat ("A") 0 none 1 true none gOpenA =
      Except.error (SulleyError.DanglingReference ("A"), gOpenA) ∧
    s_checksum ("Z") ("crc32") 0 ("<") none gEmptyReq =
      Except.error (SulleyError.NotFound ("Z"), gEmptyReq) := by
  constructor
  · exact ((c7_modifier_declaration_errors ("A") ("crc32") ("<") ("binary")
      0 0 false false true 0 1 none none gOpenA reqOpenA rfl).1 (by decide)).2.2
  · exact (((c7_modifier_declaration_errors ("Z") ("crc32") ("<") ("binary")
      0 0 false false true 0 1 none none gEmptyReq (blocks_request ("r"))
      rfl).2 rfl) rfl).1

/-- C8: `s_switch` fails with NotFound for every unregistered name with the
entry state carried unchanged (selector untouched); `s_update` fails with
NotFound when the name is absent from the current request's name table with
the entry state carried unchanged (every field value untouched); when the
name is present, `s_update` replaces exactly that entry of the table and no
other. -/
theorem c8_switch_update_spec (name : String) (value : PVal) (g : GState)
    (cur : Request) (hcur : getCurrent g = some cur) :
    (∀ n2 : String, alookup g.REQUESTS n2 = none →
      s_switch n2 g =
        Except.error
          (SulleyError.NotFound ("blocks.REQUESTS NOT FOUND: " ++ n2), g)) ∧
    (alookup cur.names name = none →
      s_update name value g =
        Except.error (SulleyError.NotFound
          ("NO OBJECT WITH NAME " ++ name ++ " FOUND IN CURRENT REQUEST"), g)) ∧
    ((alookup cur.names name).isSome = true →
      s_update name value g =
        Except.ok (setCurrent g { cur with names := aset cur.names name value }) ∧
      alookup (aset cur.names name value) name = some value ∧
      (∀ other, other ≠ name →
        alookup (aset cur.names name value) other = alookup cur.names other)) := by
  refine ⟨?_, ?_, ?_⟩
  · intro n2 h
    simp [ s_switch, h]
  · intro h
    simp [ s_update, hcur, h]
  · intro h
    obtain ⟨v0, hv0⟩ := Option.isSome_iff_exists.mp h
    refine ⟨?_, alookup_aset_self _ _ _ h,
      fun other ho => alookup_aset_other _ _ _ _ ho⟩
    simp [ s_update, hcur, hv0]

/-- C8 witness: updating the present field `f` replaces exactly its value,
and switching to an unknown request fails with NotFound, via the theorem at
concrete inputs. -/
theorem c8_witness :
    s_update ("f") (PVal.int 7) (gWithF 0) = Except.ok (gWithF 7) ∧
    s_switch ("nope") (gWithF 0) =
      Except.error (SulleyError.NotFound ("blocks.REQUESTS NOT FOUND: " ++ "nope"),
        gWithF 0) := by
  constructor
  · have h := ((c8_switch_update_spec ("f") (PVal.int 7) (gWithF 0) (reqWithF 0)
      rfl).2.2 rfl).1
    rw [h]
    rfl
  · exact (c8_switch_update_spec ("f") PVal.noneV (gWithF 0) (reqWithF 0)
      rfl).1 ("nope") rfl

/-- C9: invoking any of the unimplemented legacy stub aliases raises an
exception on every argument and never returns normally — the closure from
`custom_raise` evaluates `msg(argument(x))` where `msg` is bound to a plain
string, so the call raises before the `raise` statement is reached — and the
closure never touches the current request, so nothing is pushed. -/
theorem c9_stub_aliases_always_raise :
    (∀ x, ∃ e, s_string_lf x = Except.error e) ∧
    (∀ x, ∃ e, s_string_or_env x = Except.error e) ∧
    (∀ x, ∃ e, s_string_repeat x = Except.error e) ∧
    (∀ x, ∃ e, s_string_variable x = Except.error e) ∧
    (∀ x, ∃ e, s_string_variables x = Except.error e) ∧
    (∀ x, ∃ e, s_binary_repeat x = Except.error e) ∧
    (∀ x, ∃ e, s_unistring_variable x = Except.error e) ∧
    (∀ x, ∃ e, s_xdr_string x = Except.error e) ∧
    (∀ x, ∃ e, s_binary_block_size_intel_halfword_plus_variable x = Except.error e) ∧
    (∀ x, ∃ e, s_binary_block_size_halfword_bigendian_variable x = Except.error e) ∧
    (∀ x, ∃ e, s_binary_block_size_word_bigendian_plussome x = Except.error e) ∧
    (∀ x, ∃ e, s_binary_block_size_word_bigendian_variable x = Except.error e) ∧
    (∀ x, ∃ e, s_binary_block_size_halfword_bigendian_mult x = Except.error e) ∧
    (∀ x, ∃ e, s_binary_block_size_intel_halfword_variable x = Except.error e) ∧
    (∀ x, ∃ e, s_binary_block_size_intel_halfword_mult x = Except.error e) ∧
    (∀ x, ∃ e, s_binary_block_size_intel_halfword_plus x = Except.error e) ∧
    (∀ x, ∃ e, s_binary_block_size_halfword_bigendian x = Except.error e) ∧
    (∀ x, ∃ e, s_binary_block_size_word_intel_mult_plus x = Except.error e) ∧
    (∀ x, ∃ e, s_binary_block_size_intel_word_variable x = Except.error e) ∧
    (∀ x, ∃ e, s_binary_block_size_word_bigendian_mult x = Except.error e) ∧
    (∀ x, ∃ e, s_blocksize_unsigned_string_variable x = Except.error e) ∧
    (∀ x, ∃ e, s_binary_block_size_intel_word_plus x = Except.error e) ∧
    (∀ x, ∃ e, s_binary_block_size_intel_halfword x = Except.error e) ∧
    (∀ x, ∃ e, s_binary_block_size_word_bigendian x = Except.error e) ∧
    (∀ x, ∃ e, s_blocksize_signed_string_variable x = Except.error e) ∧
    (∀ x, ∃ e, s_binary_block_size_byte_variable x = Except.error e) ∧
    (∀ x, ∃ e, s_binary_block_size_intel_word x = Except.error e) ∧
    (∀ x, ∃ e, s_binary_block_size_byte_plus x = Except.error e) ∧
    (∀ x, ∃ e, s_binary_block_size_byte_mult x = Except.error e) ∧
    (∀ x, ∃ e, s_blocksize_asciihex_variable x = Except.error e) ∧
    (∀ x, ∃ e, s_binary_block_size_byte x = Except.error e) ∧
    (∀ x, ∃ e, s_blocksize_asciihex x = Except.error e) ∧
    (∀ x, ∃ e, s_blocksize_string x = Except.error e) :=
  ⟨fun x => custom_raise_raises _ _ x, fun x => custom_raise_raises _ _ x,
   fun x => custom_raise_raises _ _ x, fun x => custom_raise_raises _ _ x,
   fun x => custom_raise_raises _ _ x, fun x => custom_raise_raises _ _ x,
   fun x => custom_raise_raises _ _ x, fun x => custom_raise_raises _ _ x,
   fun x => custom_raise_raises _ _ x, fun x => custom_raise_raises _ _ x,
   fun x => custom_raise_raises _ _ x, fun x => custom_raise_raises _ _ x,
   fun x => custom_raise_raises _ _ x, fun x => custom_raise_raises _ _ x,
   fun x => custom_raise_raises _ _ x, fun x => custom_raise_raises _ _ x,
   fun x => custom_raise_raises _ _ x, fun x => custom_raise_raises _ _ x,
   fun x => custom_raise_raises _ _ x, fun x => custom_raise_raises _ _ x,
   fun x => custom_raise_raises _ _ x, fun x => custom_raise_raises _ _ x,
   fun x => custom_raise_raises _ _ x, fun x => custom_raise_raises _ _ x,
   fun x => custom_raise_raises _ _ x, fun x => custom_raise_raises _ _ x,
   fun x => custom_raise_raises _ _ x, fun x => custom_raise_raises _ _ x,
   fun x => custom_raise_raises _ _ x, fun x => custom_raise_raises _ _ x,
   fun x => custom_raise_raises _ _ x, fun x => custom_raise_raises _ _ x,
   fun x => custom_raise_raises _ _ x⟩
